import Mathlib

set_option maxRecDepth 100000

/-!
Verification of the dlp video relay service.

The development shallowly embeds the Go sources:
* package `ytdlp` (metadata cache, fetcher and format selector),
* package `streamer` (ffmpeg argument assembly and stream orchestration),
* package `main` (the `/video` HTTP handler).

Modelling conventions:
* Go `int` is modelled as `ℤ` (no height/width/bitrate in this program can
  approach 2^63, so wrap-around is irrelevant and omitted).
* Go `float64` fields (`TBR`, `ABR`) are modelled as `ℚ`.  Every concrete
  rational used in a theorem below is exactly representable as a binary64
  value and the float subtractions at those points are exact, so the
  rational model and the float computation agree there.
* Go's `int(x)` conversion on a float truncates toward zero; this is
  `goFloatToInt` below.
* Go maps (`http_headers`) are modelled as association lists; `sync.Map`
  is modelled as a function `String → Option _`.  Map iteration order is
  modelled as list order.
* `time.Time`/`time.Duration` are modelled as integer nanoseconds.
* ASCII-only strings appear in all codec/protocol identifiers, for which
  Go's `strings.ToLower`/`EqualFold` agree with `Char.toLower`.
-/

namespace GoStrings

/-- Char-list version of Go `strings.HasPrefix`. -/
def charsStartWith : List Char → List Char → Bool
  | _, [] => true
  | [], _ :: _ => false
  | c :: cs, p :: ps => c == p && charsStartWith cs ps

/-- Go `strings.HasPrefix s pre`. -/
def startsWith (s pre : String) : Bool := charsStartWith s.data pre.data

/-- Char-list version of Go `strings.Contains`. -/
def charsContain : List Char → List Char → Bool
  | [], pat => pat.isEmpty
  | c :: rest, pat => charsStartWith (c :: rest) pat || charsContain rest pat

/-- Go `strings.Contains s pat` (substring occurrence). -/
def containsStr (s pat : String) : Bool := charsContain s.data pat.data

/-- Go `strings.ToLower` (ASCII). -/
def toLowerStr (s : String) : String := ⟨s.data.map Char.toLower⟩

/-- Go `strings.EqualFold` (ASCII case-insensitive equality). -/
def eqFold (a b : String) : Bool := toLowerStr a == toLowerStr b

end GoStrings

/-- Go's `int(x)` conversion of a `float64`: truncation toward zero.
Computed from the reduced fraction of the exact rational value. -/
def goFloatToInt (q : ℚ) : ℤ :=
  if q < 0 then -(((-q.num).toNat / q.den : ℕ) : ℤ) else ((q.num.toNat / q.den : ℕ) : ℤ)

namespace Ytdlp

open GoStrings

/-- `ytdlp.Format` — a single stream format (src/unnamed/part_001:49-60). -/
structure Format where
  FormatID : String
  URL : String
  VCodec : String
  ACodec : String
  Width : ℤ
  Height : ℤ
  TBR : ℚ
  ABR : ℚ
  Protocol : String
  HTTPHeaders : List (String × String)
deriving DecidableEq, Repr

/-- `ytdlp.Info` — the video metadata (src/unnamed/part_001:63-68). -/
structure Info where
  ID : String
  Title : String
  Formats : List Format
  HTTPHeaders : List (String × String)
deriving DecidableEq, Repr

/-- The Go `Quality` type is a string type; the three named constants follow. -/
abbrev Quality := String

def QualityLow : Quality := "low"
def QualityMedium : Quality := "medium"
def QualityHigh : Quality := "high"

/-- Video-capability filter from `SelectFormats`: `f.VCodec != "none" && f.Width > 0`. -/
def isVideo (f : Format) : Bool := decide (f.VCodec ≠ "none") && decide (0 < f.Width)

/-- Audio-capability filter from `SelectFormats`: `f.ACodec != "none"`. -/
def isAudio (f : Format) : Bool := decide (f.ACodec ≠ "none")

/-- The video comparator passed to `slices.SortFunc` in `SelectFormats`
(src/unnamed/part_001:135-151): height descending, then `avc1` prefix
preferred, then total bitrate descending through `int(b.TBR - a.TBR)`. -/
def videoSortCmp (a b : Format) : ℤ :=
  if a.Height ≠ b.Height then b.Height - a.Height
  else if (startsWith a.VCodec "avc1") ≠ (startsWith b.VCodec "avc1") then
    (if startsWith a.VCodec "avc1" then -1 else 1)
  else goFloatToInt (b.TBR - a.TBR)

/-- Audio-only test from the audio comparator: `a.VCodec == "none"`. -/
def isAudioOnly (f : Format) : Bool := f.VCodec == "none"

/-- Plain-HTTP (non-HLS) test from the audio comparator:
`strings.HasPrefix(a.Protocol, "http") && !strings.Contains(a.Protocol, "m3u8")`. -/
def isHttpNonM3u8 (f : Format) : Bool :=
  startsWith f.Protocol "http" && !(containsStr f.Protocol "m3u8")

/-- Effective audio rate: `aRate := a.ABR; if aRate == 0 { aRate = a.TBR }`. -/
def effectiveRate (f : Format) : ℚ := if f.ABR = 0 then f.TBR else f.ABR

/-- The audio comparator passed to `slices.SortFunc` in `SelectFormats`
(src/unnamed/part_001:154-186): audio-only first, then plain-HTTP first,
then effective rate descending through `int(bRate - aRate)`. -/
def audioSortCmp (a b : Format) : ℤ :=
  if isAudioOnly a ≠ isAudioOnly b then (if isAudioOnly a then -1 else 1)
  else if isHttpNonM3u8 a ≠ isHttpNonM3u8 b then (if isHttpNonM3u8 a then -1 else 1)
  else goFloatToInt (effectiveRate b - effectiveRate a)

/-- `slices.SortFunc(videos, cmp)` modelled as a comparator-respecting sort. -/
def sortVideoFormats (l : List Format) : List Format :=
  List.insertionSort (fun a b => videoSortCmp a b ≤ 0) l

/-- `slices.SortFunc(audios, cmp)` modelled as a comparator-respecting sort. -/
def sortAudioFormats (l : List Format) : List Format :=
  List.insertionSort (fun a b => audioSortCmp a b ≤ 0) l

/-- The local `abs` helper (src/unnamed/part_001:254-259). -/
def goAbs (x : ℤ) : ℤ := if x < 0 then -x else x

/-- Scan loop of `findClosestResolution`: keep the current best unless an
element is strictly closer to the target height. -/
def findClosestAux (target : ℤ) (best : Format) (minDiff : ℤ) : List Format → Format
  | [] => best
  | f :: rest =>
    if goAbs (f.Height - target) < minDiff then
      findClosestAux target f (goAbs (f.Height - target)) rest
    else
      findClosestAux target best minDiff rest

/-- `findClosestResolution` (src/unnamed/part_001:237-252).  The Go function
indexes `videos[0]` unconditionally; the empty case (never reached by the
caller) is modelled as `none`. -/
def findClosestResolution (videos : List Format) (targetHeight : ℤ) : Option Format :=
  match videos with
  | [] => none
  | v0 :: _ =>
    some (findClosestAux targetHeight v0 (goAbs (v0.Height - targetHeight)) videos)

/-- `SelectFormats` (src/unnamed/part_001:115-235): partition, sort, and pick
per quality tier, with the muxed-video audio fallback. -/
def SelectFormats (info : Info) (quality : Quality) : Option Format × Option Format :=
  let videos := sortVideoFormats (info.Formats.filter isVideo)
  let audios := sortAudioFormats (info.Formats.filter isAudio)
  let video : Option Format :=
    if videos = [] then none
    else if quality = QualityHigh then videos.head?
    else if quality = QualityMedium then findClosestResolution videos 720
    else if quality = QualityLow then findClosestResolution videos 360
    else videos.head?
  let audio : Option Format :=
    if audios = [] then
      match video with
      | some v => if v.ACodec ≠ "none" then some v else none
      | none => none
    else if quality = QualityLow then audios.getLast?
    else audios.head?
  (video, audio)

end Ytdlp

namespace Ytdlp

open GoStrings

/-- `cachedInfo` — cache entry (src/unnamed/part_001:20-23), timestamp in
integer nanoseconds. -/
structure CachedInfo where
  info : Info
  timestamp : ℤ
deriving DecidableEq

/-- `cacheTTL = 10 * time.Minute` in nanoseconds (src/unnamed/part_001:25). -/
def cacheTTL : ℤ := 10 * 60 * 1000000000

/-- The `infoCache` `sync.Map`, modelled as a partial map. -/
abbrev Cache := String → Option CachedInfo

/-- `infoCache.Store`. -/
def mapStore (c : Cache) (k : String) (v : CachedInfo) : Cache :=
  fun key => if key = k then some v else c key

/-- `infoCache.Delete`. -/
def mapDelete (c : Cache) (k : String) : Cache :=
  fun key => if key = k then none else c key

/-- Outcome of running the external `yt-dlp` process: an `exec.ExitError`
carrying stderr, another execution error, or captured stdout. -/
inductive ProberErr where
  | exitError (stderr : String)
  | otherError (msg : String)
deriving DecidableEq

/-- Raw prober outcome fed to `GetVideoInfo`: execution error, output that
fails `json.Unmarshal` (`none`), or parsed metadata (`some info`). -/
abbrev ProberOutcome := Except ProberErr (Option Info)

/-- Errors returned by `GetVideoInfo`: `ErrVideoNotFound`, a wrapped
"failed to run yt-dlp" error, or a wrapped "failed to unmarshal JSON" error. -/
inductive YtdlpError where
  | videoNotFound
  | runFailed (msg : String)
  | unmarshalFailed (msg : String)
deriving DecidableEq

/-- Result of one `GetVideoInfo` call: the returned value or error, the cache
state after the call, and whether the external prober was invoked. -/
structure GetResult where
  result : Except YtdlpError Info
  cache : Cache
  proberInvoked : Bool

/-- Error classification in `GetVideoInfo` (src/unnamed/part_001:93-101):
an exit error whose stderr signals unavailability or HTTP 404 becomes
`ErrVideoNotFound`; everything else is a wrapped run failure. -/
def classifyRunError (e : ProberErr) : YtdlpError :=
  match e with
  | .exitError stderr =>
    if containsStr stderr "Video unavailable" || containsStr stderr "HTTP Error 404" then
      .videoNotFound
    else .runFailed stderr
  | .otherError msg => .runFailed msg

/-- The cache-miss path of `GetVideoInfo` (src/unnamed/part_001:91-111):
run the prober, classify failures, parse, and store on success only. -/
def fetchAndStore (c : Cache) (now : ℤ) (videoURL : String) (prober : ProberOutcome) :
    GetResult :=
  match prober with
  | .error e => ⟨.error (classifyRunError e), c, true⟩
  | .ok none => ⟨.error (.unmarshalFailed videoURL), c, true⟩
  | .ok (some info) => ⟨.ok info, mapStore c videoURL ⟨info, now⟩, true⟩

/-- `GetVideoInfo` (src/unnamed/part_001:80-112): serve a cached entry whose
age is strictly below the TTL; otherwise delete any stale entry and take the
fetch path. -/
def GetVideoInfo (c : Cache) (now : ℤ) (videoURL : String) (prober : ProberOutcome) :
    GetResult :=
  match c videoURL with
  | some entry =>
    if now - entry.timestamp < cacheTTL then ⟨.ok entry.info, c, false⟩
    else fetchAndStore (mapDelete c videoURL) now videoURL prober
  | none => fetchAndStore c now videoURL prober

/-- One pass of the background sweep started in `init`
(src/unnamed/part_001:27-45): drop entries strictly older than the TTL. -/
def sweep (c : Cache) (now : ℤ) : Cache := fun k =>
  match c k with
  | some e => if now - e.timestamp > cacheTTL then none else some e
  | none => none

/-- Local variables of `SelectFormats` that hold format slices: the input
`info.Formats` plus the two candidate slices. -/
structure SelectState where
  Formats : List Format
  videos : List Format
  audios : List Format
deriving DecidableEq

/-- Statement-level state-passing translation of `SelectFormats`
(src/unnamed/part_001:115-235), used for the frame/no-mutation property.
`make([]Format, 0, len(info.Formats))` allocates fresh backing arrays and
the range loop appends element copies, so the in-place `slices.SortFunc`
calls write only to `videos`/`audios`; no statement in the function writes
to `info.Formats` or its elements, which the translation makes explicit by
threading all three slices through each step. -/
def SelectFormatsTrace (info : Info) (quality : Quality) :
    SelectState × (Option Format × Option Format) :=
  let s0 : SelectState := ⟨info.Formats, [], []⟩
  let s1 : SelectState :=
    { s0 with videos := s0.Formats.filter isVideo, audios := s0.Formats.filter isAudio }
  let s2 : SelectState :=
    { s1 with videos := sortVideoFormats s1.videos, audios := sortAudioFormats s1.audios }
  let video : Option Format :=
    if s2.videos = [] then none
    else if quality = QualityHigh then s2.videos.head?
    else if quality = QualityMedium then findClosestResolution s2.videos 720
    else if quality = QualityLow then findClosestResolution s2.videos 360
    else s2.videos.head?
  let audio : Option Format :=
    if s2.audios = [] then
      match video with
      | some v => if v.ACodec ≠ "none" then some v else none
      | none => none
    else if quality = QualityLow then s2.audios.getLast?
    else s2.audios.head?
  (s2, (video, audio))

end Ytdlp

namespace Streamer

open GoStrings

/-- `argsFromHeaders` (src/unnamed/part_003:141-157): `User-Agent` becomes a
dedicated `-user_agent` flag; all other headers are joined CRLF-separated
behind one `-headers` flag.  Go map iteration is modelled as list order. -/
def argsFromHeaders (headers : List (String × String)) : List String :=
  let acc := headers.foldl
    (fun (acc : List String × List String) kv =>
      if eqFold kv.1 "User-Agent" then (acc.1 ++ ["-user_agent", kv.2], acc.2)
      else (acc.1, acc.2 ++ [kv.1 ++ ": " ++ kv.2]))
    ([], [])
  if acc.2.isEmpty then acc.1
  else acc.1 ++ ["-headers", String.intercalate "\r\n" acc.2 ++ "\r\n"]

/-- The passthrough test for video in `buildFfmpegArgs`
(src/unnamed/part_003:115-117): case-insensitive substring match of the
H.264/H.265 family signatures against the codec id. -/
def isH264orH265 (vCodec : String) : Bool :=
  containsStr (toLowerStr vCodec) "avc1" || containsStr (toLowerStr vCodec) "h264" ||
  containsStr (toLowerStr vCodec) "hevc" || containsStr (toLowerStr vCodec) "hvc1" ||
  containsStr (toLowerStr vCodec) "hev1" || containsStr (toLowerStr vCodec) "h265"

/-- The passthrough test for audio in `buildFfmpegArgs`
(src/unnamed/part_003:129): case-insensitive substring match of the AAC
family signatures. -/
def isAacFamily (aCodec : String) : Bool :=
  containsStr (toLowerStr aCodec) "mp4a" || containsStr (toLowerStr aCodec) "aac"

/-- `buildFfmpegArgs` (src/unnamed/part_003:81-139). -/
def buildFfmpegArgs (videoURL : String) (videoHeaders : List (String × String))
    (audioURL : String) (audioHeaders : List (String × String))
    (vCodec aCodec : String) : List String :=
  let args0 := ["-hide_banner", "-loglevel", "info", "-threads", "0"]
  let args1 := args0 ++ argsFromHeaders videoHeaders ++ ["-i", videoURL]
  let hasSeparateAudio := (audioURL != "") && (audioURL != videoURL)
  let args2 :=
    if hasSeparateAudio then args1 ++ argsFromHeaders audioHeaders ++ ["-i", audioURL]
    else args1
  let args3 :=
    if hasSeparateAudio then args2 ++ ["-map", "0:v:0", "-map", "1:a:0"]
    else args2 ++ ["-map", "0:v:0", "-map", "0:a:0?"]
  let args4 := args3 ++
    (if isH264orH265 vCodec then ["-c:v", "copy"]
     else ["-c:v", "libx264", "-preset", "ultrafast", "-g", "60",
           "-keyint_min", "60", "-sc_threshold", "0"])
  let args5 := args4 ++
    (if isAacFamily aCodec then ["-c:a", "copy"] else ["-c:a", "aac"])
  args5 ++ ["-f", "mp4", "-movflags", "frag_keyframe+empty_moov", "pipe:1"]

/-- Observable outcome of one ffmpeg pipeline run: bytes written to the
client before exit, and the non-nil error from `cmd.Wait`/`cmd.Start`
(`none` for a zero exit). -/
structure StreamOutcome where
  bytesOut : ℕ
  exitErr : Option String
deriving DecidableEq

end Streamer

namespace Main

/-- HTTP response as the client observes it: the status line actually sent,
the `http.Error` message if one was written, the count of streamed body
bytes, and whether the body ends in a mid-stream truncation. -/
structure HttpResponse where
  status : ℕ
  errBody : Option String
  bodyBytes : ℕ
  truncated : Bool
deriving DecidableEq

/-- Quality-parameter parsing in `videoHandler` (src/main.go:37-49); the Go
`query.Get` yields `""` for an absent parameter and the switch defaults to
high. -/
def parseQuality (qParam : String) : Ytdlp.Quality :=
  match qParam with
  | "low" => Ytdlp.QualityLow
  | "medium" => Ytdlp.QualityMedium
  | "high" => Ytdlp.QualityHigh
  | _ => Ytdlp.QualityHigh

/-- `videoHandler` (src/main.go:26-101).  `http.Error` calls are modelled as
a status plus message with no body bytes.  On the streaming path the Go
handler sets headers and calls `streamer.StreamVideo`; whether that call
fails or not, the handler only logs and returns (src/main.go:93-98), so the
committed status is the implicit 200 (written by `net/http` at the first
body write, or on return when nothing was written), the body is whatever
ffmpeg produced, and a failing pipeline leaves the body truncated. -/
def videoHandler (urlParam qParam : String) (c : Ytdlp.Cache) (now : ℤ)
    (prober : Ytdlp.ProberOutcome) (stream : Streamer.StreamOutcome) : HttpResponse :=
  if urlParam = "" then ⟨400, some "Missing 'url' parameter", 0, false⟩
  else
    let quality := parseQuality qParam
    match (Ytdlp.GetVideoInfo c now urlParam prober).result with
    | .error .videoNotFound => ⟨404, some "Video not found", 0, false⟩
    | .error (.runFailed _) => ⟨500, some "Failed to fetch video metadata", 0, false⟩
    | .error (.unmarshalFailed _) => ⟨500, some "Failed to fetch video metadata", 0, false⟩
    | .ok info =>
      match (Ytdlp.SelectFormats info quality).1 with
      | none => ⟨404, some "No suitable video format found", 0, false⟩
      | some _ => ⟨200, none, stream.bytesOut, stream.exitErr.isSome⟩

end Main

deriving instance DecidableEq for Except

section Fixtures

/-- Empty cache. -/
def emptyCache : Ytdlp.Cache := fun _ => none

/-- 720p VP9 at 1000.5 kbps total bitrate (binary64-exact). -/
def cxVidA : Ytdlp.Format :=
  ⟨"cv1", "https://v/a", "vp9", "none", 1280, 720, mkRat 2001 2, 0, "https", []⟩

/-- 720p VP9 at 1000 kbps total bitrate. -/
def cxVidB : Ytdlp.Format :=
  ⟨"cv2", "https://v/b", "vp9", "none", 1280, 720, mkRat 1000 1, 0, "https", []⟩

/-- 1080p VP9 at 2000 kbps. -/
def wVid1080 : Ytdlp.Format :=
  ⟨"wv1", "https://v/1", "vp9", "none", 1920, 1080, mkRat 2000 1, 0, "https", []⟩

/-- 720p VP9 at 3000 kbps. -/
def wVid720vp9hi : Ytdlp.Format :=
  ⟨"wv2", "https://v/2", "vp9", "none", 1280, 720, mkRat 3000 1, 0, "https", []⟩

/-- 720p H.264 at 2000 kbps. -/
def wVid720avc : Ytdlp.Format :=
  ⟨"wv3", "https://v/3", "avc1.4d401e", "none", 1280, 720, mkRat 2000 1, 0, "https", []⟩

/-- 720p VP9 at 2000 kbps. -/
def wVid720vp9lo : Ytdlp.Format :=
  ⟨"wv4", "https://v/4", "vp9", "none", 1280, 720, mkRat 2000 1, 0, "https", []⟩

/-- Audio-only opus at 1000.5 kbps effective rate (binary64-exact). -/
def cxAudA : Ytdlp.Format :=
  ⟨"ca1", "https://a/a", "none", "opus", 0, 0, 0, mkRat 2001 2, "https", []⟩

/-- Audio-only opus at 1000 kbps effective rate. -/
def cxAudB : Ytdlp.Format :=
  ⟨"ca2", "https://a/b", "none", "opus", 0, 0, 0, mkRat 1000 1, "https", []⟩

/-- Audio-only 129 kbps over plain HTTPS. -/
def wAudOnly : Ytdlp.Format :=
  ⟨"140", "https://a/140", "none", "mp4a.40.2", 0, 0, mkRat 129 1, mkRat 129 1, "https", []⟩

/-- Muxed 480p candidate, 572 kbps total, over HLS. -/
def wAudMuxed : Ytdlp.Format :=
  ⟨"94", "https://a/94", "avc1.4d401e", "mp4a.40.2", 634, 480, mkRat 572 1, mkRat 128 1,
    "m3u8", []⟩

/-- Audio-only candidate over HLS. -/
def wAudM3u8 : Ytdlp.Format :=
  ⟨"wa3", "https://a/3", "none", "mp4a.40.2", 0, 0, mkRat 128 1, mkRat 128 1,
    "m3u8_native", []⟩

/-- Audio-only 200 kbps over plain HTTPS. -/
def wAudHi : Ytdlp.Format :=
  ⟨"wa5", "https://a/5", "none", "opus", 0, 0, mkRat 200 1, mkRat 200 1, "https", []⟩

/-- Audio-only 100 kbps over plain HTTPS. -/
def wAudLo : Ytdlp.Format :=
  ⟨"wa6", "https://a/6", "none", "opus", 0, 0, mkRat 100 1, mkRat 100 1, "https", []⟩

/-- Audio-only candidate with the lowest effective bitrate (50 kbps). -/
def lowAudioOnly : Ytdlp.Format :=
  ⟨"140", "https://a/x", "none", "opus", 0, 0, mkRat 50 1, mkRat 50 1, "https", []⟩

/-- Muxed candidate with a higher effective bitrate (128 kbps audio). -/
def lowMuxed : Ytdlp.Format :=
  ⟨"94", "https://a/y", "avc1.4d401e", "mp4a.40.2", 640, 480, mkRat 500 1, mkRat 128 1,
    "https", []⟩

/-- Metadata offering an audio-only low-bitrate format and a muxed
higher-bitrate format. -/
def lowInfo : Ytdlp.Info := ⟨"idL", "titleL", [lowAudioOnly, lowMuxed], []⟩

/-- Metadata with a single H.264 video format (and no audio-capable format). -/
def soloVideoInfo : Ytdlp.Info :=
  ⟨"idS", "titleS", [⟨"18", "https://v/18", "avc1.4d401e", "none", 640, 360,
    mkRat 500 1, 0, "https", []⟩], []⟩

/-- Metadata with no formats at all. -/
def emptyInfo : Ytdlp.Info := ⟨"idE", "titleE", [], []⟩

/-- Video ladder 2160p / 1080p / 720p / 360p used for the target-resolution
witness. -/
def ladderInfo : Ytdlp.Info :=
  ⟨"idR", "titleR",
    [⟨"l1", "https://v/l1", "vp9", "none", 3840, 2160, mkRat 5000 1, 0, "https", []⟩,
     ⟨"l2", "https://v/l2", "avc1.640028", "none", 1920, 1080, mkRat 3000 1, 0, "https", []⟩,
     ⟨"l3", "https://v/l3", "avc1.4d401e", "none", 1280, 720, mkRat 1500 1, 0, "https", []⟩,
     ⟨"l4", "https://v/l4", "vp9", "none", 640, 360, mkRat 800 1, 0, "https", []⟩], []⟩

/-- Sample metadata value for cache round-trip witnesses. -/
def sampleInfo : Ytdlp.Info := ⟨"idC", "titleC", [], []⟩

end Fixtures

section Helpers

/-- Truncation toward zero sends a rational at most `-1` to a negative
integer. -/
lemma goFloatToInt_neg {q : ℚ} (h : q ≤ -1) : goFloatToInt q < 0 := by
  have hq0 : q < 0 := lt_of_le_of_lt h (by norm_num)
  have h1 : q.num ≤ -(q.den : ℤ) := by
    rw [Rat.le_def] at h
    simpa using h
  have hden : 0 < q.den := q.den_pos
  have h2 : q.den ≤ (-q.num).toNat := by omega
  have h3 : 1 ≤ (-q.num).toNat / q.den := (Nat.one_le_div_iff hden).mpr h2
  unfold goFloatToInt
  rw [if_pos hq0]
  omega

/-- Every branch of the fetch path reports that the prober ran. -/
lemma fetchAndStore_invoked (c : Ytdlp.Cache) (now : ℤ) (url : String)
    (p : Ytdlp.ProberOutcome) : (Ytdlp.fetchAndStore c now url p).proberInvoked = true := by
  rcases p with e | o
  · rfl
  · rcases o with _ | i <;> rfl

/-- Evaluation of `GetVideoInfo` on a key absent from the cache. -/
lemma GetVideoInfo_eq_of_none (c : Ytdlp.Cache) (now : ℤ) (url : String)
    (p : Ytdlp.ProberOutcome) (hc : c url = none) :
    Ytdlp.GetVideoInfo c now url p = Ytdlp.fetchAndStore c now url p := by
  unfold Ytdlp.GetVideoInfo
  rw [hc]

/-- Evaluation of `GetVideoInfo` on a key present in the cache. -/
lemma GetVideoInfo_eq_of_some (c : Ytdlp.Cache) (now : ℤ) (url : String)
    (p : Ytdlp.ProberOutcome) (entry : Ytdlp.CachedInfo) (hc : c url = some entry) :
    Ytdlp.GetVideoInfo c now url p =
      if now - entry.timestamp < Ytdlp.cacheTTL then ⟨.ok entry.info, c, false⟩
      else Ytdlp.fetchAndStore (Ytdlp.mapDelete c url) now url p := by
  unfold Ytdlp.GetVideoInfo
  rw [hc]

/-- A failing fetch path leaves the cache it was given untouched. -/
lemma fetchAndStore_cache_of_error (c : Ytdlp.Cache) (now : ℤ) (url : String)
    (p : Ytdlp.ProberOutcome) (err : Ytdlp.YtdlpError)
    (h : (Ytdlp.fetchAndStore c now url p).result = .error err) :
    (Ytdlp.fetchAndStore c now url p).cache = c := by
  rcases p with e | o
  · rfl
  · rcases o with _ | i
    · rfl
    · simp [Ytdlp.fetchAndStore] at h

/-- A `getLast?` hit is a member of the list. -/
lemma mem_of_getLast?_eq_some {α : Type} {l : List α} {a : α}
    (h : l.getLast? = some a) : a ∈ l := by
  cases l with
  | nil => simp at h
  | cons x xs =>
    rw [List.getLast?_eq_getLast _ (by simp)] at h
    cases h
    exact List.getLast_mem _

/-- Sorting the video candidates preserves emptiness. -/
lemma sortVideoFormats_eq_nil_iff (l : List Ytdlp.Format) :
    Ytdlp.sortVideoFormats l = [] ↔ l = [] := by
  unfold Ytdlp.sortVideoFormats
  constructor
  · intro h
    have := (List.perm_insertionSort (fun a b => Ytdlp.videoSortCmp a b ≤ 0) l).length_eq
    rw [h] at this
    exact List.length_eq_zero.mp this.symm
  · intro h
    rw [h]
    rfl

/-- Sorting the audio candidates preserves emptiness. -/
lemma sortAudioFormats_eq_nil_iff (l : List Ytdlp.Format) :
    Ytdlp.sortAudioFormats l = [] ↔ l = [] := by
  unfold Ytdlp.sortAudioFormats
  constructor
  · intro h
    have := (List.perm_insertionSort (fun a b => Ytdlp.audioSortCmp a b ≤ 0) l).length_eq
    rw [h] at this
    exact List.length_eq_zero.mp this.symm
  · intro h
    rw [h]
    rfl

end Helpers

/-- Claim C1, counterexample.  Two video-capable 720p VP9 formats whose total
bitrates differ by 0.5 kbps: the comparator `int(b.TBR - a.TBR)` truncates
the difference to `0`, so the ordering does not place the greater-bitrate
format first, refuting rule (iii) of the claim as stated. -/
theorem videoSortCmp_bitrate_tie_cex :
    Ytdlp.isVideo cxVidA = true ∧ Ytdlp.isVideo cxVidB = true ∧
    cxVidA.Height = cxVidB.Height ∧
    GoStrings.startsWith cxVidA.VCodec "avc1" = GoStrings.startsWith cxVidB.VCodec "avc1" ∧
    cxVidB.TBR < cxVidA.TBR ∧
    ¬(Ytdlp.videoSortCmp cxVidA cxVidB < 0) := by
  with_unfolding_all decide

/-- Claim C1, amended.  The video comparator orders by height descending;
at equal height an `avc1`-prefixed codec id comes first; at equal height and
equal codec preference the format whose total bitrate is greater by at least
1 comes first (sub-unit bitrate differences are truncated to a tie). -/
theorem videoSortCmp_composite_rules (a b : Ytdlp.Format) :
    (b.Height < a.Height → Ytdlp.videoSortCmp a b < 0) ∧
    (a.Height = b.Height → GoStrings.startsWith a.VCodec "avc1" = true →
      GoStrings.startsWith b.VCodec "avc1" = false → Ytdlp.videoSortCmp a b < 0) ∧
    (a.Height = b.Height →
      GoStrings.startsWith a.VCodec "avc1" = GoStrings.startsWith b.VCodec "avc1" →
      b.TBR + 1 ≤ a.TBR → Ytdlp.videoSortCmp a b < 0) := by
  refine ⟨?_, ?_, ?_⟩
  · intro h
    unfold Ytdlp.videoSortCmp
    rw [if_pos (by omega : a.Height ≠ b.Height)]
    omega
  · intro hh hA hB
    unfold Ytdlp.videoSortCmp
    rw [if_neg (by simp [hh]), if_pos (by simp [hA, hB]), if_pos hA]
    norm_num
  · intro hh hflag hq
    unfold Ytdlp.videoSortCmp
    rw [if_neg (by simp [hh]), if_neg (by simp [hflag])]
    exact goFloatToInt_neg (by linarith)

/-- Witness for the amended claim C1 at concrete formats: 1080p before 720p;
at 720p, H.264 before a higher-bitrate VP9; at 720p VP9, 3000 kbps before
2000 kbps. -/
theorem videoSortCmp_composite_rules_witness :
    Ytdlp.videoSortCmp wVid1080 wVid720vp9hi < 0 ∧
    Ytdlp.videoSortCmp wVid720avc wVid720vp9hi < 0 ∧
    Ytdlp.videoSortCmp wVid720vp9hi wVid720vp9lo < 0 :=
  ⟨(videoSortCmp_composite_rules wVid1080 wVid720vp9hi).1 (by decide),
   (videoSortCmp_composite_rules wVid720avc wVid720vp9hi).2.1 (by decide) (by decide)
     (by decide),
   (videoSortCmp_composite_rules wVid720vp9hi wVid720vp9lo).2.2 (by decide) (by decide)
     (by with_unfolding_all decide)⟩

/-- Claim C8, counterexample.  Two audio-only plain-HTTPS candidates whose
effective bitrates differ by 0.5 kbps: `int(bRate - aRate)` truncates the
difference to `0`, so the ordering does not place the greater-bitrate
candidate first, refuting rule (iii) of the claim as stated. -/
theorem audioSortCmp_bitrate_tie_cex :
    Ytdlp.isAudio cxAudA = true ∧ Ytdlp.isAudio cxAudB = true ∧
    Ytdlp.isAudioOnly cxAudA = Ytdlp.isAudioOnly cxAudB ∧
    Ytdlp.isHttpNonM3u8 cxAudA = Ytdlp.isHttpNonM3u8 cxAudB ∧
    Ytdlp.effectiveRate cxAudB < Ytdlp.effectiveRate cxAudA ∧
    ¬(Ytdlp.audioSortCmp cxAudA cxAudB < 0) := by
  with_unfolding_all decide

/-- Claim C8, amended.  The audio comparator places audio-only before muxed,
then plain-HTTP delivery before segmented delivery, then the candidate whose
effective bitrate (audio bitrate if present, else total bitrate) is greater
by at least 1 first (sub-unit differences are truncated to a tie). -/
theorem audioSortCmp_composite_rules (a b : Ytdlp.Format) :
    (Ytdlp.isAudioOnly a = true → Ytdlp.isAudioOnly b = false →
      Ytdlp.audioSortCmp a b < 0) ∧
    (Ytdlp.isAudioOnly a = Ytdlp.isAudioOnly b → Ytdlp.isHttpNonM3u8 a = true →
      Ytdlp.isHttpNonM3u8 b = false → Ytdlp.audioSortCmp a b < 0) ∧
    (Ytdlp.isAudioOnly a = Ytdlp.isAudioOnly b →
      Ytdlp.isHttpNonM3u8 a = Ytdlp.isHttpNonM3u8 b →
      Ytdlp.effectiveRate b + 1 ≤ Ytdlp.effectiveRate a →
      Ytdlp.audioSortCmp a b < 0) := by
  refine ⟨?_, ?_, ?_⟩
  · intro hA hB
    unfold Ytdlp.audioSortCmp
    rw [if_pos (by simp [hA, hB]), if_pos hA]
    norm_num
  · intro h0 hA hB
    unfold Ytdlp.audioSortCmp
    rw [if_neg (by simp [h0]), if_pos (by simp [hA, hB]), if_pos hA]
    norm_num
  · intro h0 h1 hq
    unfold Ytdlp.audioSortCmp
    rw [if_neg (by simp [h0]), if_neg (by simp [h1])]
    exact goFloatToInt_neg (by linarith)

/-- Witness for the amended claim C8 at concrete formats: an audio-only
129 kbps HTTPS candidate before a muxed 572 kbps HLS candidate; an HTTPS
audio-only candidate before an HLS one; 200 kbps before 100 kbps within the
same class. -/
theorem audioSortCmp_composite_rules_witness :
    Ytdlp.audioSortCmp wAudOnly wAudMuxed < 0 ∧
    Ytdlp.audioSortCmp wAudOnly wAudM3u8 < 0 ∧
    Ytdlp.audioSortCmp wAudHi wAudLo < 0 :=
  ⟨(audioSortCmp_composite_rules wAudOnly wAudMuxed).1 (by decide) (by decide),
   (audioSortCmp_composite_rules wAudOnly wAudM3u8).2.1 (by decide) (by decide)
     (by decide),
   (audioSortCmp_composite_rules wAudHi wAudLo).2.2 (by decide) (by decide)
     (by with_unfolding_all decide)⟩

/-- Claim C4.  For every input, the assembled ffmpeg argument list carries a
video directive that is a stream copy exactly when the codec id contains one
of the H.264/H.265 family signatures (case-insensitively), and otherwise a
re-encode to H.264 with forced periodic keyframes at the fixed interval of
60 frames; the audio directive is a stream copy exactly when the audio codec
id contains an AAC family signature, and otherwise a re-encode to AAC. -/
theorem buildFfmpegArgs_codec_directives (videoURL : String)
    (videoHeaders : List (String × String)) (audioURL : String)
    (audioHeaders : List (String × String)) (vCodec aCodec : String) :
    (∃ pre,
      Streamer.buildFfmpegArgs videoURL videoHeaders audioURL audioHeaders vCodec aCodec =
        pre ++
        (if Streamer.isH264orH265 vCodec then ["-c:v", "copy"]
         else ["-c:v", "libx264", "-preset", "ultrafast", "-g", "60",
               "-keyint_min", "60", "-sc_threshold", "0"]) ++
        (if Streamer.isAacFamily aCodec then ["-c:a", "copy"] else ["-c:a", "aac"]) ++
        ["-f", "mp4", "-movflags", "frag_keyframe+empty_moov", "pipe:1"]) ∧
    (Streamer.isH264orH265 vCodec = true ↔
      (GoStrings.containsStr (GoStrings.toLowerStr vCodec) "avc1" = true ∨
       GoStrings.containsStr (GoStrings.toLowerStr vCodec) "h264" = true ∨
       GoStrings.containsStr (GoStrings.toLowerStr vCodec) "hevc" = true ∨
       GoStrings.containsStr (GoStrings.toLowerStr vCodec) "hvc1" = true ∨
       GoStrings.containsStr (GoStrings.toLowerStr vCodec) "hev1" = true ∨
       GoStrings.containsStr (GoStrings.toLowerStr vCodec) "h265" = true)) ∧
    (Streamer.isAacFamily aCodec = true ↔
      (GoStrings.containsStr (GoStrings.toLowerStr aCodec) "mp4a" = true ∨
       GoStrings.containsStr (GoStrings.toLowerStr aCodec) "aac" = true)) := by
  refine ⟨⟨_, rfl⟩, ?_, ?_⟩
  · simp [Streamer.isH264orH265, Bool.or_eq_true, or_assoc]
  · simp [Streamer.isAacFamily, Bool.or_eq_true]

/-- Claim C10.  The statement-level translation of `SelectFormats` leaves the
input metadata's format list unchanged (the candidate slices are freshly
allocated copies, and the in-place sorts write only to them), and computes
the same picks as the functional model. -/
theorem selectFormatsTrace_preserves_metadata (info : Ytdlp.Info)
    (quality : Ytdlp.Quality) :
    (Ytdlp.SelectFormatsTrace info quality).1.Formats = info.Formats ∧
    (Ytdlp.SelectFormatsTrace info quality).2 = Ytdlp.SelectFormats info quality :=
  ⟨rfl, rfl⟩

/-- Claim C5, counterexample.  A pipeline that exits non-zero before writing
a single output byte: the handler's committed status is the implicit 200 —
it only logs the failure (src/main.go:93-98) — not the server error the
claim requires. -/
theorem videoHandler_preoutput_failure_cex :
    (Main.videoHandler "https://example/v" "" emptyCache 0 (.ok (some soloVideoInfo))
      ⟨0, some "exit status 1"⟩).status = 200 ∧
    (⟨0, some "exit status 1"⟩ : Streamer.StreamOutcome).bytesOut = 0 ∧
    ¬((Main.videoHandler "https://example/v" "" emptyCache 0 (.ok (some soloVideoInfo))
      ⟨0, some "exit status 1"⟩).status = 500) := by
  with_unfolding_all decide

/-- Claim C5, amended.  Whenever the handler reaches the streaming stage and
the pipeline fails, the failure is logged only, regardless of how many bytes
were forwarded: the response carries the implicit 200 status, no error body,
exactly the forwarded bytes, and is truncated. -/
theorem videoHandler_stream_failure_logged_only (urlParam qParam : String)
    (c : Ytdlp.Cache) (now : ℤ) (prober : Ytdlp.ProberOutcome)
    (stream : Streamer.StreamOutcome) (info : Ytdlp.Info)
    (hu : ¬(urlParam = ""))
    (hok : (Ytdlp.GetVideoInfo c now urlParam prober).result = .ok info)
    (hv : ((Ytdlp.SelectFormats info (Main.parseQuality qParam)).1).isSome = true)
    (he : stream.exitErr.isSome = true) :
    Main.videoHandler urlParam qParam c now prober stream =
      ⟨200, none, stream.bytesOut, true⟩ := by
  obtain ⟨v, hv'⟩ := Option.isSome_iff_exists.mp hv
  obtain ⟨m, hm⟩ := Option.isSome_iff_exists.mp he
  unfold Main.videoHandler
  rw [if_neg hu]
  simp only [hok, hv', hm]
  rfl

/-- Witness for the amended claim C5: a concrete request whose pipeline
fails after 5 forwarded bytes yields a 200 response with 5 body bytes,
truncated. -/
theorem videoHandler_stream_failure_logged_only_witness :
    Main.videoHandler "https://example/v" "low" emptyCache 0 (.ok (some soloVideoInfo))
      ⟨5, some "boom"⟩ = ⟨200, none, 5, true⟩ :=
  videoHandler_stream_failure_logged_only "https://example/v" "low" emptyCache 0
    (.ok (some soloVideoInfo)) ⟨5, some "boom"⟩ soloVideoInfo
    (by decide) (by with_unfolding_all decide) (by with_unfolding_all decide) (by decide)

/-- Claim C3.  A value stored under a key at time `t0` is served as a cache
hit (without invoking the prober) by any lookup whose age `t1 - t0` is below
the TTL; once the age reaches the TTL the lookup itself treats the entry as
absent and takes the fetch path, with no explicit delete needed; and no
lookup anywhere ever serves an entry whose age has reached the TTL. -/
theorem cache_ttl_roundtrip (c : Ytdlp.Cache) (t0 t1 : ℤ) (url : String)
    (info : Ytdlp.Info) (p1 : Ytdlp.ProberOutcome) :
    (t1 - t0 < Ytdlp.cacheTTL →
      (Ytdlp.GetVideoInfo (Ytdlp.mapStore c url ⟨info, t0⟩) t1 url p1).result = .ok info ∧
      (Ytdlp.GetVideoInfo (Ytdlp.mapStore c url ⟨info, t0⟩) t1 url p1).proberInvoked
        = false) ∧
    (Ytdlp.cacheTTL ≤ t1 - t0 →
      (Ytdlp.GetVideoInfo (Ytdlp.mapStore c url ⟨info, t0⟩) t1 url p1).proberInvoked
        = true) ∧
    (∀ (c2 : Ytdlp.Cache) (t2 : ℤ) (u2 : String) (p2 : Ytdlp.ProberOutcome)
      (e : Ytdlp.CachedInfo), c2 u2 = some e → Ytdlp.cacheTTL ≤ t2 - e.timestamp →
      (Ytdlp.GetVideoInfo c2 t2 u2 p2).proberInvoked = true) := by
  have hstore : Ytdlp.mapStore c url ⟨info, t0⟩ url = some ⟨info, t0⟩ := by
    simp [Ytdlp.mapStore]
  refine ⟨?_, ?_, ?_⟩
  · intro h
    rw [GetVideoInfo_eq_of_some _ _ _ _ _ hstore]
    rw [if_pos (show t1 - t0 < Ytdlp.cacheTTL from h)]
    exact ⟨rfl, rfl⟩
  · intro h
    rw [GetVideoInfo_eq_of_some _ _ _ _ _ hstore]
    rw [if_neg (show ¬(t1 - t0 < Ytdlp.cacheTTL) by omega)]
    exact fetchAndStore_invoked _ _ _ _
  · intro c2 t2 u2 p2 e he hage
    rw [GetVideoInfo_eq_of_some _ _ _ _ _ he]
    rw [if_neg (by omega)]
    exact fetchAndStore_invoked _ _ _ _

/-- Witness for claim C3: a concrete entry stored at time 0 is a hit one
second before the 10-minute TTL, a miss exactly at the TTL, and a stale
entry under any key is never served. -/
theorem cache_ttl_roundtrip_witness :
    ((Ytdlp.GetVideoInfo (Ytdlp.mapStore emptyCache "u" ⟨sampleInfo, 0⟩) 599000000000 "u"
        (.error (.otherError "x"))).result = .ok sampleInfo ∧
      (Ytdlp.GetVideoInfo (Ytdlp.mapStore emptyCache "u" ⟨sampleInfo, 0⟩) 599000000000 "u"
        (.error (.otherError "x"))).proberInvoked = false) ∧
    (Ytdlp.GetVideoInfo (Ytdlp.mapStore emptyCache "u" ⟨sampleInfo, 0⟩) 600000000000 "u"
      (.error (.otherError "x"))).proberInvoked = true ∧
    (Ytdlp.GetVideoInfo (Ytdlp.mapStore emptyCache "u" ⟨sampleInfo, 0⟩) 600000000000 "u"
      (.ok (some sampleInfo))).proberInvoked = true :=
  ⟨(cache_ttl_roundtrip emptyCache 0 599000000000 "u" sampleInfo
      (.error (.otherError "x"))).1 (by decide),
   (cache_ttl_roundtrip emptyCache 0 600000000000 "u" sampleInfo
      (.error (.otherError "x"))).2.1 (by decide),
   (cache_ttl_roundtrip emptyCache 0 0 "u" sampleInfo (.error (.otherError "x"))).2.2
     (Ytdlp.mapStore emptyCache "u" ⟨sampleInfo, 0⟩) 600000000000 "u"
     (.ok (some sampleInfo)) ⟨sampleInfo, 0⟩ (by decide) (by decide)⟩

/-- Claim C9.  Whenever `GetVideoInfo` returns an error — not-found,
abnormal prober exit, or unparseable output — the cache it leaves behind
holds no entry for the requested key, and a subsequent request for the same
key invokes the prober again. -/
theorem failed_fetch_never_cached (c : Ytdlp.Cache) (now later : ℤ) (url : String)
    (p p2 : Ytdlp.ProberOutcome) (err : Ytdlp.YtdlpError)
    (h : (Ytdlp.GetVideoInfo c now url p).result = .error err) :
    (Ytdlp.GetVideoInfo c now url p).cache url = none ∧
    (Ytdlp.GetVideoInfo ((Ytdlp.GetVideoInfo c now url p).cache) later url p2).proberInvoked
      = true := by
  have hnone : (Ytdlp.GetVideoInfo c now url p).cache url = none := by
    cases hc : c url with
    | none =>
      rw [GetVideoInfo_eq_of_none _ _ _ _ hc] at h ⊢
      rw [fetchAndStore_cache_of_error _ _ _ _ _ h]
      exact hc
    | some entry =>
      rw [GetVideoInfo_eq_of_some _ _ _ _ _ hc] at h ⊢
      by_cases hfresh : now - entry.timestamp < Ytdlp.cacheTTL
      · rw [if_pos hfresh] at h
        simp at h
      · rw [if_neg hfresh] at h ⊢
        rw [fetchAndStore_cache_of_error _ _ _ _ _ h]
        simp [Ytdlp.mapDelete]
  refine ⟨hnone, ?_⟩
  rw [GetVideoInfo_eq_of_none _ _ _ _ hnone]
  exact fetchAndStore_invoked _ _ _ _

/-- Witness for claim C9: a prober exit reporting "Video unavailable" yields
`ErrVideoNotFound`, leaves no cache entry, and the retry invokes the prober
again. -/
theorem failed_fetch_never_cached_witness :
    (Ytdlp.GetVideoInfo emptyCache 0 "u" (.error (.exitError "ERROR: Video unavailable"))).cache
      "u" = none ∧
    (Ytdlp.GetVideoInfo
      ((Ytdlp.GetVideoInfo emptyCache 0 "u"
        (.error (.exitError "ERROR: Video unavailable"))).cache)
      5 "u" (.error (.exitError "ERROR: Video unavailable"))).proberInvoked = true :=
  failed_fetch_never_cached emptyCache 0 5 "u"
    (.error (.exitError "ERROR: Video unavailable"))
    (.error (.exitError "ERROR: Video unavailable")) .videoNotFound
    (by with_unfolding_all decide)

/-- Claim C6.  For every metadata and quality tier, a non-empty set of
video-capable formats guarantees a video pick, and an empty format list
yields no video pick and no audio pick. -/
theorem selectFormats_presence (info : Ytdlp.Info) (quality : Ytdlp.Quality) :
    (info.Formats.filter Ytdlp.isVideo ≠ [] →
      ((Ytdlp.SelectFormats info quality).1).isSome = true) ∧
    (info.Formats = [] →
      (Ytdlp.SelectFormats info quality).1 = none ∧
      (Ytdlp.SelectFormats info quality).2 = none) := by
  constructor
  · intro h
    have hs : Ytdlp.sortVideoFormats (info.Formats.filter Ytdlp.isVideo) ≠ [] := by
      rw [ne_eq, sortVideoFormats_eq_nil_iff]
      exact h
    cases hcons : Ytdlp.sortVideoFormats (info.Formats.filter Ytdlp.isVideo) with
    | nil => exact absurd hcons hs
    | cons v0 rest =>
      simp only [Ytdlp.SelectFormats, hcons]
      rw [if_neg (by simp)]
      by_cases h1 : quality = Ytdlp.QualityHigh
      · rw [if_pos h1]
        simp
      · rw [if_neg h1]
        by_cases h2 : quality = Ytdlp.QualityMedium
        · rw [if_pos h2]
          simp [Ytdlp.findClosestResolution]
        · rw [if_neg h2]
          by_cases h3 : quality = Ytdlp.QualityLow
          · rw [if_pos h3]
            simp [Ytdlp.findClosestResolution]
          · rw [if_neg h3]
            simp
  · intro h
    unfold Ytdlp.SelectFormats
    rw [h]
    exact ⟨rfl, rfl⟩

/-- Witness for claim C6: metadata with a single H.264 video format yields a
video pick, and empty metadata yields neither pick. -/
theorem selectFormats_presence_witness :
    ((Ytdlp.SelectFormats soloVideoInfo Ytdlp.QualityHigh).1).isSome = true ∧
    ((Ytdlp.SelectFormats emptyInfo Ytdlp.QualityHigh).1 = none ∧
      (Ytdlp.SelectFormats emptyInfo Ytdlp.QualityHigh).2 = none) :=
  ⟨(selectFormats_presence soloVideoInfo Ytdlp.QualityHigh).1
      (by with_unfolding_all decide),
   (selectFormats_presence emptyInfo Ytdlp.QualityHigh).2 rfl⟩

/-- Claim C2, counterexample.  A metadata with an audio-only 50 kbps
candidate and a muxed 128 kbps candidate: the low-tier audio pick is the
muxed format at the bottom of the composite order, not the audio-capable
format with the lowest effective bitrate. -/
theorem low_tier_audio_pick_cex :
    (Ytdlp.SelectFormats lowInfo Ytdlp.QualityLow).2 = some lowMuxed ∧
    Ytdlp.isAudio lowAudioOnly = true ∧ lowAudioOnly ∈ lowInfo.Formats ∧
    Ytdlp.effectiveRate lowAudioOnly < Ytdlp.effectiveRate lowMuxed := by
  with_unfolding_all decide

/-- Claim C2, amended.  The low-tier audio pick is the bottom (lowest-ranked)
element of the composite-sorted audio candidates — lowest effective bitrate
only within the least-preferred class, since a muxed or segmented candidate
sorts below every audio-only plain-HTTP one regardless of bitrate — and the
pick is always one of the audio-capable formats. -/
theorem low_tier_audio_pick (info : Ytdlp.Info)
    (h : info.Formats.filter Ytdlp.isAudio ≠ []) :
    (Ytdlp.SelectFormats info Ytdlp.QualityLow).2 =
      (Ytdlp.sortAudioFormats (info.Formats.filter Ytdlp.isAudio)).getLast? ∧
    (∀ f, (Ytdlp.SelectFormats info Ytdlp.QualityLow).2 = some f →
      f ∈ info.Formats.filter Ytdlp.isAudio) := by
  have ha : Ytdlp.sortAudioFormats (info.Formats.filter Ytdlp.isAudio) ≠ [] := by
    rw [ne_eq, sortAudioFormats_eq_nil_iff]
    exact h
  have heq : (Ytdlp.SelectFormats info Ytdlp.QualityLow).2 =
      (Ytdlp.sortAudioFormats (info.Formats.filter Ytdlp.isAudio)).getLast? := by
    simp only [Ytdlp.SelectFormats]
    rw [if_neg ha, if_pos trivial]
  refine ⟨heq, ?_⟩
  intro f hf
  rw [heq] at hf
  have hmem := mem_of_getLast?_eq_some hf
  unfold Ytdlp.sortAudioFormats at hmem
  exact (List.mem_insertionSort _).mp hmem

/-- Witness for the amended claim C2: on the two-candidate metadata the
low-tier pick is the bottom of the sorted candidates, and the muxed format
is indeed one of the audio candidates. -/
theorem low_tier_audio_pick_witness :
    (Ytdlp.SelectFormats lowInfo Ytdlp.QualityLow).2 =
      (Ytdlp.sortAudioFormats (lowInfo.Formats.filter Ytdlp.isAudio)).getLast? ∧
    lowMuxed ∈ lowInfo.Formats.filter Ytdlp.isAudio :=
  ⟨(low_tier_audio_pick lowInfo (by with_unfolding_all decide)).1,
   (low_tier_audio_pick lowInfo (by with_unfolding_all decide)).2 lowMuxed
     (by with_unfolding_all decide)⟩

/-- Specification of the `findClosestResolution` scan loop: starting from a
current best whose recorded distance is correct, the loop returns the
element at the least position attaining the minimal distance to the target
(or keeps the initial best when nothing is strictly closer). -/
lemma findClosestAux_spec (t : ℤ) (l : List Ytdlp.Format) :
    ∀ (best : Ytdlp.Format) (md : ℤ), md = Ytdlp.goAbs (best.Height - t) →
      (∀ g ∈ l, Ytdlp.goAbs ((Ytdlp.findClosestAux t best md l).Height - t) ≤
        Ytdlp.goAbs (g.Height - t)) ∧
      Ytdlp.goAbs ((Ytdlp.findClosestAux t best md l).Height - t) ≤ md ∧
      (Ytdlp.findClosestAux t best md l = best ∨
        (∃ i, ∃ hi : i < l.length, Ytdlp.findClosestAux t best md l = l.get ⟨i, hi⟩ ∧
          Ytdlp.goAbs ((Ytdlp.findClosestAux t best md l).Height - t) < md ∧
          ∀ j, ∀ hj : j < i,
            Ytdlp.goAbs ((Ytdlp.findClosestAux t best md l).Height - t) <
              Ytdlp.goAbs ((l.get ⟨j, Nat.lt_trans hj hi⟩).Height - t))) := by
  induction l with
  | nil =>
    intro best md hmd
    exact ⟨by simp, le_of_eq hmd.symm, Or.inl rfl⟩
  | cons f fs ih =>
    intro best md hmd
    by_cases hc : Ytdlp.goAbs (f.Height - t) < md
    · have heq : Ytdlp.findClosestAux t best md (f :: fs) =
          Ytdlp.findClosestAux t f (Ytdlp.goAbs (f.Height - t)) fs := by
        simp only [Ytdlp.findClosestAux]
        rw [if_pos hc]
      obtain ⟨A, B, C⟩ := ih f (Ytdlp.goAbs (f.Height - t)) rfl
      rw [heq]
      refine ⟨?_, le_of_lt (lt_of_le_of_lt B hc), ?_⟩
      · intro g hg
        rcases List.mem_cons.mp hg with rfl | hg'
        · exact B
        · exact A g hg'
      · rcases C with hrb | ⟨i, hi, hri, hlt, hstrict⟩
        · right
          refine ⟨0, by simp, hrb, ?_, ?_⟩
          · rw [hrb]
            exact hc
          · intro j hj
            exact absurd hj (Nat.not_lt_zero j)
        · right
          refine ⟨i + 1, by simpa using Nat.succ_lt_succ hi, hri,
            lt_trans hlt hc, ?_⟩
          intro j hj
          cases j with
          | zero => exact hlt
          | succ k => exact hstrict k (Nat.lt_of_succ_lt_succ hj)
    · have heq : Ytdlp.findClosestAux t best md (f :: fs) =
          Ytdlp.findClosestAux t best md fs := by
        simp only [Ytdlp.findClosestAux]
        rw [if_neg hc]
      obtain ⟨A, B, C⟩ := ih best md hmd
      rw [heq]
      have hmdf : md ≤ Ytdlp.goAbs (f.Height - t) := not_lt.mp hc
      refine ⟨?_, B, ?_⟩
      · intro g hg
        rcases List.mem_cons.mp hg with rfl | hg'
        · exact le_trans B hmdf
        · exact A g hg'
      · rcases C with hrb | ⟨i, hi, hri, hlt, hstrict⟩
        · exact Or.inl hrb
        · right
          refine ⟨i + 1, by simpa using Nat.succ_lt_succ hi, hri, hlt, ?_⟩
          intro j hj
          cases j with
          | zero => exact lt_of_lt_of_le hlt hmdf
          | succ k => exact hstrict k (Nat.lt_of_succ_lt_succ hj)

/-- On a non-empty list, `findClosestResolution` returns the element at the
least position attaining the minimal distance to the target height. -/
lemma findClosestResolution_spec (l : List Ytdlp.Format) (t : ℤ) (hl : l ≠ []) :
    ∃ r, Ytdlp.findClosestResolution l t = some r ∧
      (∀ g ∈ l, Ytdlp.goAbs (r.Height - t) ≤ Ytdlp.goAbs (g.Height - t)) ∧
      ∃ i, ∃ hi : i < l.length, r = l.get ⟨i, hi⟩ ∧
        ∀ j, ∀ hj : j < i,
          Ytdlp.goAbs (r.Height - t) <
            Ytdlp.goAbs ((l.get ⟨j, Nat.lt_trans hj hi⟩).Height - t) := by
  cases l with
  | nil => exact absurd rfl hl
  | cons v0 rest =>
    obtain ⟨A, B, C⟩ :=
      findClosestAux_spec t (v0 :: rest) v0 (Ytdlp.goAbs (v0.Height - t)) rfl
    refine ⟨Ytdlp.findClosestAux t v0 (Ytdlp.goAbs (v0.Height - t)) (v0 :: rest),
      rfl, A, ?_⟩
    rcases C with hrb | ⟨i, hi, hri, _, hstrict⟩
    · exact ⟨0, by simp, hrb, fun j hj => absurd hj (Nat.not_lt_zero j)⟩
    · exact ⟨i, hi, hri, hstrict⟩

/-- Claim C7.  On metadata with at least one video-capable format, the
medium-tier pick minimises the distance of its height to 720 over all video
candidates and the low-tier pick minimises the distance to 360; in either
case the pick sits at the least position of the composite sort order among
the candidates attaining that minimum (every earlier position is strictly
farther from the target). -/
theorem selectFormats_target_resolution (info : Ytdlp.Info)
    (h : info.Formats.filter Ytdlp.isVideo ≠ []) :
    (∃ r, (Ytdlp.SelectFormats info Ytdlp.QualityMedium).1 = some r ∧
      (∀ g ∈ info.Formats.filter Ytdlp.isVideo,
        Ytdlp.goAbs (r.Height - 720) ≤ Ytdlp.goAbs (g.Height - 720)) ∧
      ∃ i, ∃ hi : i < (Ytdlp.sortVideoFormats (info.Formats.filter Ytdlp.isVideo)).length,
        r = (Ytdlp.sortVideoFormats (info.Formats.filter Ytdlp.isVideo)).get ⟨i, hi⟩ ∧
        ∀ j, ∀ hj : j < i,
          Ytdlp.goAbs (r.Height - 720) <
            Ytdlp.goAbs (((Ytdlp.sortVideoFormats
              (info.Formats.filter Ytdlp.isVideo)).get
                ⟨j, Nat.lt_trans hj hi⟩).Height - 720)) ∧
    (∃ r, (Ytdlp.SelectFormats info Ytdlp.QualityLow).1 = some r ∧
      (∀ g ∈ info.Formats.filter Ytdlp.isVideo,
        Ytdlp.goAbs (r.Height - 360) ≤ Ytdlp.goAbs (g.Height - 360)) ∧
      ∃ i, ∃ hi : i < (Ytdlp.sortVideoFormats (info.Formats.filter Ytdlp.isVideo)).length,
        r = (Ytdlp.sortVideoFormats (info.Formats.filter Ytdlp.isVideo)).get ⟨i, hi⟩ ∧
        ∀ j, ∀ hj : j < i,
          Ytdlp.goAbs (r.Height - 360) <
            Ytdlp.goAbs (((Ytdlp.sortVideoFormats
              (info.Formats.filter Ytdlp.isVideo)).get
                ⟨j, Nat.lt_trans hj hi⟩).Height - 360)) := by
  have hs : Ytdlp.sortVideoFormats (info.Formats.filter Ytdlp.isVideo) ≠ [] := by
    rw [ne_eq, sortVideoFormats_eq_nil_iff]
    exact h
  have hmem : ∀ g, g ∈ info.Formats.filter Ytdlp.isVideo →
      g ∈ Ytdlp.sortVideoFormats (info.Formats.filter Ytdlp.isVideo) := by
    intro g hg
    unfold Ytdlp.sortVideoFormats
    exact (List.mem_insertionSort _).mpr hg
  have hmed : (Ytdlp.SelectFormats info Ytdlp.QualityMedium).1 =
      Ytdlp.findClosestResolution
        (Ytdlp.sortVideoFormats (info.Formats.filter Ytdlp.isVideo)) 720 := by
    simp only [Ytdlp.SelectFormats]
    rw [if_neg hs, if_neg (by decide), if_pos trivial]
  have hlow : (Ytdlp.SelectFormats info Ytdlp.QualityLow).1 =
      Ytdlp.findClosestResolution
        (Ytdlp.sortVideoFormats (info.Formats.filter Ytdlp.isVideo)) 360 := by
    simp only [Ytdlp.SelectFormats]
    rw [if_neg hs, if_neg (by decide), if_neg (by decide), if_pos trivial]
  constructor
  · obtain ⟨r, hr, A, i, hi, hri, hstrict⟩ :=
      findClosestResolution_spec
        (Ytdlp.sortVideoFormats (info.Formats.filter Ytdlp.isVideo)) 720 hs
    exact ⟨r, by rw [hmed, hr], fun g hg => A g (hmem g hg), i, hi, hri, hstrict⟩
  · obtain ⟨r, hr, A, i, hi, hri, hstrict⟩ :=
      findClosestResolution_spec
        (Ytdlp.sortVideoFormats (info.Formats.filter Ytdlp.isVideo)) 360 hs
    exact ⟨r, by rw [hlow, hr], fun g hg => A g (hmem g hg), i, hi, hri, hstrict⟩

/-- Witness for claim C7 on the 2160p/1080p/720p/360p ladder. -/
theorem selectFormats_target_resolution_witness :
    (∃ r, (Ytdlp.SelectFormats ladderInfo Ytdlp.QualityMedium).1 = some r ∧
      (∀ g ∈ ladderInfo.Formats.filter Ytdlp.isVideo,
        Ytdlp.goAbs (r.Height - 720) ≤ Ytdlp.goAbs (g.Height - 720)) ∧
      ∃ i, ∃ hi : i <
          (Ytdlp.sortVideoFormats (ladderInfo.Formats.filter Ytdlp.isVideo)).length,
        r = (Ytdlp.sortVideoFormats (ladderInfo.Formats.filter Ytdlp.isVideo)).get
          ⟨i, hi⟩ ∧
        ∀ j, ∀ hj : j < i,
          Ytdlp.goAbs (r.Height - 720) <
            Ytdlp.goAbs (((Ytdlp.sortVideoFormats
              (ladderInfo.Formats.filter Ytdlp.isVideo)).get
                ⟨j, Nat.lt_trans hj hi⟩).Height - 720)) ∧
    (∃ r, (Ytdlp.SelectFormats ladderInfo Ytdlp.QualityLow).1 = some r ∧
      (∀ g ∈ ladderInfo.Formats.filter Ytdlp.isVideo,
        Ytdlp.goAbs (r.Height - 360) ≤ Ytdlp.goAbs (g.Height - 360)) ∧
      ∃ i, ∃ hi : i <
          (Ytdlp.sortVideoFormats (ladderInfo.Formats.filter Ytdlp.isVideo)).length,
        r = (Ytdlp.sortVideoFormats (ladderInfo.Formats.filter Ytdlp.isVideo)).get
          ⟨i, hi⟩ ∧
        ∀ j, ∀ hj : j < i,
          Ytdlp.goAbs (r.Height - 360) <
            Ytdlp.goAbs (((Ytdlp.sortVideoFormats
              (ladderInfo.Formats.filter Ytdlp.isVideo)).get
                ⟨j, Nat.lt_trans hj hi⟩).Height - 360)) :=
  selectFormats_target_resolution ladderInfo (by with_unfolding_all decide)
